import Mathlib

/-!
Verification of the Pocket timing-deviation engine.

The embedding below translates the timing logic of
`src/Source/PluginProcessor.cpp` (`PocketAudioProcessor::processBlock`,
lines 148-191) and the display threshold of
`src/Source/PluginEditor.cpp` (`PocketAudioProcessorEditor::timerCallback`,
lines 75-100) into Lean. Host doubles are modelled as rationals; all the
inputs appearing in the claims are exactly representable in binary
floating point, so the rational model computes the same values the C++
doubles do on those inputs. `std::round` (round half away from zero) is
modelled by `roundQ`.
-/

/-- A host transport snapshot, as read from
`juce::AudioPlayHead::CurrentPositionInfo`: the fields the engine uses are
`isPlaying`, `bpm` and `ppqPosition`. -/
structure TransportSnapshot where
  isPlaying : Bool
  bpm : ℚ
  ppqPosition : ℚ
deriving Repr, DecidableEq

/-- A MIDI event in the block buffer: its sample offset within the block
(`metadata.samplePosition`) and whether `message.isNoteOn()` holds. -/
structure MidiEvent where
  samplePosition : ℤ
  isNoteOn : Bool
deriving Repr, DecidableEq

/-- The two atomic slots published by the engine:
`lastTimingDifferenceMs` and `currentPpqPosition`. -/
structure PublishedState where
  lastTimingDifferenceMs : ℚ
  currentPpqPosition : ℚ
deriving Repr, DecidableEq

/-- `std::round`: round to nearest integer, halves away from zero. -/
def roundQ (x : ℚ) : ℤ :=
  if 0 ≤ x then ⌊x + 1 / 2⌋ else ⌈x - 1 / 2⌉

/-- Line 175 of PluginProcessor.cpp:
`ppqDifference = noteAbsolutePpq - nearestQuarterNotePpq` where
`nearestQuarterNotePpq = std::round(noteAbsolutePpq)` (line 174). -/
def ppqDifference (noteAbsolutePpq : ℚ) : ℚ :=
  noteAbsolutePpq - (roundQ noteAbsolutePpq : ℚ)

/-- Line 176 of PluginProcessor.cpp:
`msDifference = ppqDifference * (60000.0 / ppqPerMinute)`. -/
def msDifference (ppqPerMinute noteAbsolutePpq : ℚ) : ℚ :=
  ppqDifference noteAbsolutePpq * (60000 / ppqPerMinute)

/-- Lines 171-176 of PluginProcessor.cpp, the body of the note-on branch:
seconds into the buffer, ppq offset, absolute ppq, then the millisecond
difference from the nearest quarter note. -/
def noteDeviationMs (ppqPerMinute startPpq sampleRate : ℚ)
    (samplePosition : ℤ) : ℚ :=
  let secondsIntoBuffer : ℚ := (samplePosition : ℚ) / sampleRate
  let ppqOffset := secondsIntoBuffer * (ppqPerMinute / 60)
  let noteAbsolutePpq := startPpq + ppqOffset
  msDifference ppqPerMinute noteAbsolutePpq

/-- Lines 165-179 of PluginProcessor.cpp: the loop over `midiMessages`.
Each note-on stores its deviation into `lastTimingDifferenceMs`; every
other message leaves the state alone. -/
def processNoteEvents (ppqPerMinute startPpq sampleRate : ℚ)
    (midi : List MidiEvent) (st : PublishedState) : PublishedState :=
  midi.foldl
    (fun s m =>
      if m.isNoteOn then
        { s with lastTimingDifferenceMs :=
            noteDeviationMs ppqPerMinute startPpq sampleRate m.samplePosition }
      else s)
    st

/-- Lines 150-190 of PluginProcessor.cpp, the whole timing logic of one
`processBlock` call. `info = none` models a null playhead or a failed
`getCurrentPosition` query; otherwise `info = some positionInfo`. The
result is the published state at the end of the block, given the state
`st` published before the block. -/
def processBlock (sampleRate : ℚ) (info : Option TransportSnapshot)
    (midi : List MidiEvent) (st : PublishedState) : PublishedState :=
  match info with
  | some positionInfo =>
    if positionInfo.isPlaying then
      let st1 := { st with currentPpqPosition := positionInfo.ppqPosition }
      if positionInfo.bpm > 0 then
        processNoteEvents positionInfo.bpm positionInfo.ppqPosition
          sampleRate midi st1
      else
        { st1 with lastTimingDifferenceMs := 0 }
    else
      { lastTimingDifferenceMs := 0, currentPpqPosition := -1 }
  | none => { lastTimingDifferenceMs := 0, currentPpqPosition := -1 }

/-- The pair of timing labels set by `timerCallback` in
PluginEditor.cpp. The string contents are abstracted to their numeric
payload: `none` is the empty label, `some v` a non-empty label showing
the value `v` (the early label shows `std::abs(differenceMs)`, the late
label shows `differenceMs`). -/
structure TimingLabels where
  earlyMs : Option ℚ
  lateMs : Option ℚ
deriving Repr, DecidableEq

/-- Line 81 of PluginEditor.cpp: `const double threshold = 0.001`. -/
def displayThreshold : ℚ := 1 / 1000

/-- Lines 78-93 of PluginEditor.cpp: the label contents chosen by
`timerCallback` from the polled `lastTimingDifferenceMs` value. -/
def timerTimingLabels (differenceMs : ℚ) : TimingLabels :=
  if differenceMs < -displayThreshold then
    { earlyMs := some |differenceMs|, lateMs := none }
  else if differenceMs > displayThreshold then
    { earlyMs := none, lateMs := some differenceMs }
  else
    { earlyMs := none, lateMs := none }

/-! Helper lemmas about the note-event fold. -/

/-- The loop over MIDI events never touches `currentPpqPosition`. -/
lemma processNoteEvents_currentPpq (b p r : ℚ) (midi : List MidiEvent)
    (st : PublishedState) :
    (processNoteEvents b p r midi st).currentPpqPosition
      = st.currentPpqPosition := by
  induction midi generalizing st with
  | nil => rfl
  | cons m tl ih =>
    simp only [processNoteEvents, List.foldl_cons] at *
    cases h : m.isNoteOn <;> simp only [h, if_true, if_false, Bool.false_eq_true] <;>
      exact ih _

/-- A block of events with no note-on leaves the state untouched. -/
lemma processNoteEvents_no_noteOn (b p r : ℚ) (midi : List MidiEvent)
    (hm : ∀ e ∈ midi, e.isNoteOn = false) (st : PublishedState) :
    processNoteEvents b p r midi st = st := by
  induction midi generalizing st with
  | nil => rfl
  | cons m tl ih =>
    have hmOn : m.isNoteOn = false := hm m (List.mem_cons_self m tl)
    simp only [processNoteEvents, List.foldl_cons, hmOn, Bool.false_eq_true,
      if_false] at *
    exact ih (fun e he => hm e (List.mem_cons_of_mem m he)) st

/-- Splitting the event loop at an append. -/
lemma processNoteEvents_append (b p r : ℚ) (l1 l2 : List MidiEvent)
    (st : PublishedState) :
    processNoteEvents b p r (l1 ++ l2) st
      = processNoteEvents b p r l2 (processNoteEvents b p r l1 st) := by
  simp [processNoteEvents, List.foldl_append]

/-- Processing a note-on followed only by non-note-on events stores
exactly that note-on deviation. -/
lemma processNoteEvents_last (b p r : ℚ) (ev : MidiEvent)
    (hev : ev.isNoteOn = true) (post : List MidiEvent)
    (hpost : ∀ e ∈ post, e.isNoteOn = false) (st : PublishedState) :
    processNoteEvents b p r (ev :: post) st
      = { st with lastTimingDifferenceMs :=
            noteDeviationMs b p r ev.samplePosition } := by
  simp only [processNoteEvents, List.foldl_cons, hev, if_true]
  exact processNoteEvents_no_noteOn b p r post hpost _

/-- While playing with positive tempo, a block reduces to the note loop
run on the state whose position slot was just overwritten. -/
lemma processBlock_playing (sampleRate bpm startPpq : ℚ) (hbpm : 0 < bpm)
    (midi : List MidiEvent) (st : PublishedState) :
    processBlock sampleRate (some ⟨true, bpm, startPpq⟩) midi st
      = processNoteEvents bpm startPpq sampleRate midi
          { st with currentPpqPosition := startPpq } := by
  simp [processBlock, hbpm]

/-- Claim C1: for a block processed while playing with tempoBpm > 0 and
sampleRate > 0 containing exactly one note-on event, the published
lastDeviationMs equals
(positionInQuarterNotes + (samplePosition / sampleRate) * (tempoBpm / 60)
 - round(same)) * (60000 / tempoBpm). -/
theorem claim1_single_noteOn_published_deviation
    (sampleRate bpm startPpq : ℚ) (hbpm : 0 < bpm) (hsr : 0 < sampleRate)
    (pre post : List MidiEvent) (ev : MidiEvent) (hev : ev.isNoteOn = true)
    (hpre : ∀ e ∈ pre, e.isNoteOn = false)
    (hpost : ∀ e ∈ post, e.isNoteOn = false) (st : PublishedState) :
    (processBlock sampleRate (some ⟨true, bpm, startPpq⟩)
        (pre ++ ev :: post) st).lastTimingDifferenceMs
      = (startPpq + (ev.samplePosition : ℚ) / sampleRate * (bpm / 60)
          - (roundQ (startPpq + (ev.samplePosition : ℚ) / sampleRate
              * (bpm / 60)) : ℚ)) * (60000 / bpm) := by
  rw [processBlock_playing sampleRate bpm startPpq hbpm,
    processNoteEvents_append,
    processNoteEvents_no_noteOn bpm startPpq sampleRate pre hpre,
    processNoteEvents_last bpm startPpq sampleRate ev hev post hpost]
  simp [noteDeviationMs, msDifference, ppqDifference]

/-- Witness for claim C1 at sampleRate = 2, bpm = 60, startPpq = 0, one
note-on at sample offset 1. -/
theorem claim1_witness :
    (processBlock 2 (some ⟨true, 60, 0⟩)
        ([] ++ (⟨1, true⟩ : MidiEvent) :: []) ⟨0, 0⟩).lastTimingDifferenceMs
      = (0 + ((1 : ℤ) : ℚ) / 2 * (60 / 60)
          - (roundQ (0 + ((1 : ℤ) : ℚ) / 2 * (60 / 60)) : ℚ))
        * (60000 / 60) :=
  claim1_single_noteOn_published_deviation 2 60 0 (by norm_num) (by norm_num)
    [] [] ⟨1, true⟩ rfl (by simp) (by simp) ⟨0, 0⟩

/-- Claim C3: with two or more note-ons in a playing block with positive
tempo, the published lastDeviationMs at block end is the deviation of the
last note-on in arrival order; earlier deviations do not survive. -/
theorem claim3_last_noteOn_wins
    (sampleRate bpm startPpq : ℚ) (hbpm : 0 < bpm)
    (pre post : List MidiEvent) (ev e0 : MidiEvent) (h0mem : e0 ∈ pre)
    (h0on : e0.isNoteOn = true) (hev : ev.isNoteOn = true)
    (hpost : ∀ e ∈ post, e.isNoteOn = false) (st : PublishedState) :
    (processBlock sampleRate (some ⟨true, bpm, startPpq⟩)
        (pre ++ ev :: post) st).lastTimingDifferenceMs
      = noteDeviationMs bpm startPpq sampleRate ev.samplePosition := by
  rw [processBlock_playing sampleRate bpm startPpq hbpm,
    processNoteEvents_append,
    processNoteEvents_last bpm startPpq sampleRate ev hev post hpost]

/-- Witness for claim C3: two note-ons at offsets 0 and 1; the published
value is the deviation of the second. -/
theorem claim3_witness :
    (processBlock 2 (some ⟨true, 60, 0⟩)
        ((⟨0, true⟩ : MidiEvent) :: [] ++ (⟨1, true⟩ : MidiEvent) :: [])
        ⟨0, 0⟩).lastTimingDifferenceMs
      = noteDeviationMs 60 0 2 (⟨1, true⟩ : MidiEvent).samplePosition :=
  claim3_last_noteOn_wins 2 60 0 (by norm_num) [⟨0, true⟩] [] ⟨1, true⟩
    ⟨0, true⟩ (List.mem_singleton_self _) rfl rfl (by simp) ⟨0, 0⟩

/-- Claim C4 counterexample: a block with no note-on events does not
always leave lastDeviationMs unchanged — a stopped silent block resets
it to 0 (prior value 7 here). -/
theorem claim4_counterexample :
    (processBlock 44100 none [] ⟨7, 3⟩).lastTimingDifferenceMs ≠ 7 := by
  norm_num [processBlock]

/-- Claim C4 (amended): while playing with tempoBpm > 0, a block with no
note-on events leaves lastDeviationMs unchanged from the prior published
value; a stopped or invalid-tempo block instead resets it to 0. -/
theorem claim4_amended_silent_block_keeps_value
    (sampleRate bpm startPpq : ℚ) (hbpm : 0 < bpm)
    (midi : List MidiEvent) (hm : ∀ e ∈ midi, e.isNoteOn = false)
    (st : PublishedState) :
    (processBlock sampleRate (some ⟨true, bpm, startPpq⟩) midi
        st).lastTimingDifferenceMs = st.lastTimingDifferenceMs := by
  rw [processBlock_playing sampleRate bpm startPpq hbpm,
    processNoteEvents_no_noteOn bpm startPpq sampleRate midi hm]

/-- Witness for claim C4 (amended): a playing silent block keeps the
prior deviation 7. -/
theorem claim4_witness :
    (processBlock 2 (some ⟨true, 120, 0⟩) [⟨5, false⟩]
        ⟨7, 3⟩).lastTimingDifferenceMs = 7 :=
  claim4_amended_silent_block_keeps_value 2 120 0 (by norm_num)
    [⟨5, false⟩] (by simp) ⟨7, 3⟩

/-- Claim C5: when the transport snapshot is unavailable or isPlaying is
false, the block publishes currentPositionInQuarterNotes = -1 and
lastDeviationMs = 0, with the MIDI buffer ignored entirely. -/
theorem claim5_stopped_publishes_defaults
    (sampleRate : ℚ) (info : Option TransportSnapshot)
    (h : info = none
      ∨ ∃ p : TransportSnapshot, info = some p ∧ p.isPlaying = false)
    (midi : List MidiEvent) (st : PublishedState) :
    processBlock sampleRate info midi st
      = { lastTimingDifferenceMs := 0, currentPpqPosition := -1 } := by
  rcases h with h | ⟨p, hp, hplay⟩
  · subst h; rfl
  · subst hp; simp [processBlock, hplay]

/-- Witness for claim C5: a non-playing snapshot with a note-on in the
buffer still publishes the stopped defaults. -/
theorem claim5_witness :
    processBlock 44100 (some ⟨false, 120, 3⟩) [⟨0, true⟩] ⟨7, 3⟩
      = { lastTimingDifferenceMs := 0, currentPpqPosition := -1 } :=
  claim5_stopped_publishes_defaults 44100 (some ⟨false, 120, 3⟩)
    (Or.inr ⟨⟨false, 120, 3⟩, rfl, rfl⟩) [⟨0, true⟩] ⟨7, 3⟩

/-- Claim C6: while playing with tempoBpm ≤ 0, the block publishes
lastDeviationMs = 0, still publishes the snapshot position, and converts
no note-on to a deviation. -/
theorem claim6_nonpositive_bpm_publishes_zero
    (sampleRate bpm startPpq : ℚ) (hbpm : bpm ≤ 0)
    (midi : List MidiEvent) (st : PublishedState) :
    processBlock sampleRate (some ⟨true, bpm, startPpq⟩) midi st
      = { lastTimingDifferenceMs := 0, currentPpqPosition := startPpq } := by
  simp [processBlock, not_lt.mpr hbpm]

/-- Witness for claim C6 at bpm = 0 with a note-on in the buffer. -/
theorem claim6_witness :
    processBlock 44100 (some ⟨true, 0, 3⟩) [⟨0, true⟩] ⟨7, 9⟩
      = { lastTimingDifferenceMs := 0, currentPpqPosition := 3 } :=
  claim6_nonpositive_bpm_publishes_zero 44100 0 3 (by norm_num)
    [⟨0, true⟩] ⟨7, 9⟩

/-- Claim C2: for every tempoBpm > 0 and every notePosition, the grid
error notePosition - round(notePosition) has absolute value at most 0.5,
and the millisecond deviation has the same sign as the grid error. -/
theorem claim2_gridError_bound_and_sign (bpm x : ℚ) (hbpm : 0 < bpm) :
    |ppqDifference x| ≤ 1 / 2
    ∧ (msDifference bpm x < 0 ↔ ppqDifference x < 0)
    ∧ (0 < msDifference bpm x ↔ 0 < ppqDifference x) := by
  have hpos : (0 : ℚ) < 60000 / bpm := by positivity
  refine ⟨?_, ?_, ?_⟩
  · rw [ppqDifference, roundQ]
    split_ifs with h
    · rw [abs_le]
      constructor
      · have hf := Int.floor_le (x + 1 / 2)
        linarith
      · have hf := Int.lt_floor_add_one (x + 1 / 2)
        linarith
    · rw [abs_le]
      constructor
      · have hc := Int.ceil_lt_add_one (x - 1 / 2)
        linarith
      · have hc := Int.le_ceil (x - 1 / 2)
        linarith
  · rw [msDifference, mul_neg_iff]
    constructor
    · rintro (⟨h1, h2⟩ | ⟨h1, h2⟩)
      · linarith
      · exact h1
    · intro h
      exact Or.inr ⟨h, hpos⟩
  · rw [msDifference, mul_pos_iff]
    constructor
    · rintro (⟨h1, h2⟩ | ⟨h1, h2⟩)
      · exact h1
      · linarith
    · intro h
      exact Or.inl ⟨h, hpos⟩

/-- Witness for claim C2 at bpm = 120 and notePosition = 9/2. -/
theorem claim2_witness :
    |ppqDifference (9 / 2)| ≤ 1 / 2
    ∧ (msDifference 120 (9 / 2) < 0 ↔ ppqDifference (9 / 2) < 0)
    ∧ (0 < msDifference 120 (9 / 2) ↔ 0 < ppqDifference (9 / 2)) :=
  claim2_gridError_bound_and_sign 120 (9 / 2) (by norm_num)

/-- Claim C7: at tempo 120, start position 4, sample rate 44100 and a
single note-on at sample 11025 (0.25 s in), the note position is 4.5,
std::round resolves the tie to 5 (half away from zero), and the
published deviation is exactly -250 ms. -/
theorem claim7_roundtrip_concrete :
    (4 : ℚ) + ((11025 : ℤ) : ℚ) / 44100 * (120 / 60) = 9 / 2
    ∧ roundQ (9 / 2) = 5
    ∧ (processBlock 44100 (some ⟨true, 120, 4⟩) [⟨11025, true⟩]
        ⟨0, 0⟩).lastTimingDifferenceMs = -250 := by
  refine ⟨by norm_num, by norm_num [roundQ], ?_⟩
  norm_num [processBlock, processNoteEvents, noteDeviationMs, msDifference,
    ppqDifference, roundQ]

/-- Claim C8: the code has no guard for sampleRate = 0. This theorem
evaluates the code at the failing input: even with sampleRate = 0 the
note-on branch runs and overwrites lastDeviationMs, so the block is not
treated as a no-op for deviation measurement. (Under IEEE doubles the
division 11025 / 0.0 yields infinity and the stored value is NaN; in
this exact-arithmetic model division by zero yields 0 and the stored
value is 0 — either way the prior value 7 is overwritten.) -/
theorem claim8_zero_sampleRate_still_stores :
    (processBlock 0 (some ⟨true, 120, 0⟩) [⟨11025, true⟩]
        ⟨7, 0⟩).lastTimingDifferenceMs ≠ 7 := by
  norm_num [processBlock, processNoteEvents, noteDeviationMs, msDifference,
    ppqDifference, roundQ]

/-- Claim C9 counterexample: a playing snapshot with a negative position
(-5) is not degraded to stopped semantics — the engine publishes the
negative position itself (not -1) and leaves the prior deviation (7,
not 0). -/
theorem claim9_counterexample :
    (processBlock 44100 (some ⟨true, 120, -5⟩) [] ⟨7, 0⟩).currentPpqPosition
        ≠ -1
    ∧ (processBlock 44100 (some ⟨true, 120, -5⟩) []
        ⟨7, 0⟩).lastTimingDifferenceMs ≠ 0 := by
  constructor <;> norm_num [processBlock, processNoteEvents]

/-- Claim C9 (amended): only a missing playhead or failed position query
degrades to stopped semantics (-1, 0); a successfully delivered playing
snapshot has its position published as-is, even when negative. -/
theorem claim9_amended_only_query_failure_degrades
    (sampleRate : ℚ) (midi : List MidiEvent) (st : PublishedState)
    (p : TransportSnapshot) (hplay : p.isPlaying = true) :
    processBlock sampleRate none midi st
        = { lastTimingDifferenceMs := 0, currentPpqPosition := -1 }
    ∧ (processBlock sampleRate (some p) midi st).currentPpqPosition
        = p.ppqPosition := by
  refine ⟨rfl, ?_⟩
  simp only [processBlock, hplay, if_true]
  split_ifs with h
  · rw [processNoteEvents_currentPpq]
  · rfl

/-- Witness for claim C9 (amended) at a playing snapshot with position
-5. -/
theorem claim9_witness :
    processBlock 44100 none [⟨0, true⟩] ⟨7, 0⟩
        = { lastTimingDifferenceMs := 0, currentPpqPosition := -1 }
    ∧ (processBlock 44100 (some ⟨true, 120, -5⟩) [⟨0, true⟩]
        ⟨7, 0⟩).currentPpqPosition
        = (⟨true, 120, -5⟩ : TransportSnapshot).ppqPosition :=
  claim9_amended_only_query_failure_degrades 44100 [⟨0, true⟩] ⟨7, 0⟩
    ⟨true, 120, -5⟩ rfl

/-- Claim C10: the polled display is empty in both directions whenever
the absolute deviation is at most 0.001 ms; the early label is non-empty
exactly when the value is strictly below -0.001 and the late label
exactly when it is strictly above 0.001. -/
theorem claim10_display_threshold (v : ℚ) :
    ((timerTimingLabels v).earlyMs.isSome = true ↔ v < -(1 / 1000))
    ∧ ((timerTimingLabels v).lateMs.isSome = true ↔ 1 / 1000 < v)
    ∧ (|v| ≤ 1 / 1000 → timerTimingLabels v = ⟨none, none⟩) := by
  rw [timerTimingLabels, displayThreshold]
  split_ifs with h1 h2
  · refine ⟨by simpa using h1, ?_, ?_⟩
    · simp only [Option.isSome_none, Bool.false_eq_true, false_iff, not_lt]
      linarith
    · intro habs
      rw [abs_le] at habs
      linarith [habs.1]
  · refine ⟨?_, by simpa using h2, ?_⟩
    · simp only [Option.isSome_none, Bool.false_eq_true, false_iff, not_lt]
      linarith
    · intro habs
      rw [abs_le] at habs
      linarith [habs.2]
  · push_neg at h1 h2
    refine ⟨?_, ?_, fun _ => rfl⟩
    · simp only [Option.isSome_none, Bool.false_eq_true, false_iff, not_lt]
      linarith
    · simp only [Option.isSome_none, Bool.false_eq_true, false_iff, not_lt]
      linarith

/-- Witness for claim C10 at a polled value of 0: both labels empty. -/
theorem claim10_witness : timerTimingLabels 0 = ⟨none, none⟩ :=
  (claim10_display_threshold 0).2.2 (by norm_num)
